import Mathlib

/-!
Shallow embedding of the log-file discovery and CSV parsing logic of
src/okofan.py, a PyQt5 viewer for Okofen heating-system logs.  The pure
widget construction is out of scope; what is modelled is:

* strip_lines and getlogdate: date extraction from the first non-blank
  data row of a log file (null bytes removed, header skipped),
* convert_time: time normalisation by prepending the file date and
  parsing with strptime,
* load_log_list: the scan loop, with its deepcopy snapshot of the index
  taken before the loop and the restore performed on cancellation,
* open_action: the CM + six digits + .csv filename filter (glob),
* item_activated: the genfromtxt-based parse of the selected log into
  fixed 12-column records, together with the outcomes observable at the
  slot boundary (warning dialog, uncaught exception, populated view).

A file is modelled as the list of its logical lines, without line
terminators (csv.reader and genfromtxt both dispose of them; quoting is
not exercised by the log files, so csv splitting is plain splitting on
the semicolon).  CPython strptime semantics are reproduced from
Lib/_strptime.py: each directive matches the alternatives of the regex
listed there (notably %Y is exactly four digits, while %d, %m, %H, %M
and %S also accept a single digit), the whole input must be consumed,
and the datetime constructor then validates ranges (day against month
length, seconds at most 59, positive year).  First-match alternation is
used below; it agrees with regex backtracking for these formats because
every two-digit branch consumes two digits and the format character
following each directive is a non-digit literal or the end of input.
Unicode-only whitespace and byte-level decode failures are outside the
modelled input range (the log files are ASCII).
-/

inductive PErr
  | valueError
  | stopIteration
  | typeError
  | indexError
  | overflowError
  deriving DecidableEq

structure PDateTime where
  year : Nat
  month : Nat
  day : Nat
  hour : Nat
  minute : Nat
  second : Nat
  deriving DecidableEq

/-- Numeric value of an ASCII digit character. -/
def dval (c : Char) : Nat := c.toNat - 48

/-- Python str.strip default whitespace (ASCII part, the modelled range). -/
def pySpace (c : Char) : Bool :=
  c = ' ' || c = '\t' || c = '\n' || c = '\r' || c = '\x0b' || c = '\x0c'

def pyStripList (cs : List Char) : List Char :=
  ((cs.dropWhile pySpace).reverse.dropWhile pySpace).reverse

/-- Python str.strip. -/
def pyStrip (s : String) : String := String.mk (pyStripList s.toList)

/-- A line is blank when it is empty after stripping (Python: not line.strip()). -/
def isBlank (s : String) : Bool := (pyStripList s.toList).isEmpty

/-- strip_lines from okofan.py: drop the lines that are blank after stripping. -/
def strip_lines (lines : List String) : List String :=
  lines.filter (fun l => !(isBlank l))

/-- x.replace of the null character by the empty string, as done line by line
in getlogdate before the csv reader sees the data. -/
def removeNulls (s : String) : String :=
  String.mk (s.toList.filter (fun c => c != '\x00'))

def splitSemiAux : List Char → List Char → List (List Char)
  | acc, [] => [acc.reverse]
  | acc, c :: rest =>
    if c = ';' then acc.reverse :: splitSemiAux [] rest
    else splitSemiAux (c :: acc) rest

/-- Field splitting as performed by the LineSplitter of np.genfromtxt:
plain splitting on the semicolon delimiter, with no quote handling.
Only the csv reader used by getlogdate honours quoting; see csvRun. -/
def splitSemi (s : String) : List String :=
  (splitSemiAux [] s.toList).map String.mk

/-- Two-digit branch of a strptime directive: both characters are digits and
the value lies in the closed interval given by the two bounds.  The
directives below use it with the exact value set of the corresponding
regex alternatives from Lib/_strptime.py. -/
def matchTwo (lo hi : Nat) : List Char → Option (Nat × List Char)
  | c1 :: c2 :: rest =>
    if c1.isDigit ∧ c2.isDigit ∧ lo ≤ dval c1 * 10 + dval c2 ∧ dval c1 * 10 + dval c2 ≤ hi
    then some (dval c1 * 10 + dval c2, rest) else none
  | _ => none

/-- One-digit branch of a strptime directive. -/
def matchOne (lo hi : Nat) : List Char → Option (Nat × List Char)
  | c :: rest =>
    if c.isDigit ∧ lo ≤ dval c ∧ dval c ≤ hi then some (dval c, rest) else none
  | _ => none

/-- The blank-then-digit alternative of the %d directive. -/
def matchSpaceDigit : List Char → Option (Nat × List Char)
  | c1 :: c2 :: rest =>
    if c1 = ' ' ∧ c2.isDigit ∧ 1 ≤ dval c2 then some (dval c2, rest) else none
  | _ => none

/-- A literal character of the strptime format string. -/
def matchLit (ch : Char) : List Char → Option (List Char)
  | c :: rest => if c = ch then some rest else none
  | _ => none

/-- The %Y directive: exactly four digits (Lib/_strptime.py). -/
def match4 : List Char → Option (Nat × List Char)
  | a :: b :: c :: d :: rest =>
    if a.isDigit ∧ b.isDigit ∧ c.isDigit ∧ d.isDigit
    then some (((dval a * 10 + dval b) * 10 + dval c) * 10 + dval d, rest) else none
  | _ => none

/-- The %d directive: 01 to 31, or a single digit 1 to 9, or a blank then a
digit 1 to 9. -/
def matchDay (cs : List Char) : Option (Nat × List Char) :=
  matchTwo 1 31 cs <|> matchOne 1 9 cs <|> matchSpaceDigit cs

/-- The %m directive: 01 to 12 or a single digit 1 to 9. -/
def matchMonth (cs : List Char) : Option (Nat × List Char) :=
  matchTwo 1 12 cs <|> matchOne 1 9 cs

/-- The %H directive: 00 to 23 or a single digit. -/
def matchHour (cs : List Char) : Option (Nat × List Char) :=
  matchTwo 0 23 cs <|> matchOne 0 9 cs

/-- The %M directive: 00 to 59 or a single digit. -/
def matchMinute (cs : List Char) : Option (Nat × List Char) :=
  matchTwo 0 59 cs <|> matchOne 0 9 cs

/-- The %S directive: 00 to 61 (leap seconds included) or a single digit. -/
def matchSecond (cs : List Char) : Option (Nat × List Char) :=
  matchTwo 0 61 cs <|> matchOne 0 9 cs

def isLeap (y : Nat) : Bool := y % 4 = 0 && (y % 100 != 0 || y % 400 = 0)

def daysInMonth (y m : Nat) : Nat :=
  if m = 2 then (if isLeap y then 29 else 28)
  else if m = 4 ∨ m = 6 ∨ m = 9 ∨ m = 11 then 30
  else 31

/-- Validation performed by the datetime constructor after the regex match:
year between 1 and 9999, day within the month. -/
def validDate (y m d : Nat) : Bool :=
  decide (1 ≤ y ∧ y ≤ 9999 ∧ 1 ≤ d ∧ d ≤ daysInMonth y m)

/-- datetime.strptime with format %d.%m.%Y, as used by getlogdate.  The
whole input must be consumed, then the constructor validates the date. -/
def strptimeDMY (s : String) : Option (Nat × Nat × Nat) := do
  let (d, r1) ← matchDay s.toList
  let r2 ← matchLit '.' r1
  let (m, r3) ← matchMonth r2
  let r4 ← matchLit '.' r3
  let (y, r5) ← match4 r4
  if r5.isEmpty ∧ validDate y m d then pure (y, m, d) else none

def digitChar (n : Nat) : Char := Char.ofNat (48 + n)

def pad2 (n : Nat) : String := String.mk [digitChar (n / 10 % 10), digitChar (n % 10)]

def pad4 (n : Nat) : String :=
  String.mk [digitChar (n / 1000 % 10), digitChar (n / 100 % 10),
             digitChar (n / 10 % 10), digitChar (n % 10)]

/-- date.isoformat of a validated date: zero-padded YYYY-MM-DD. -/
def isoDate (y m d : Nat) : String := pad4 y ++ "-" ++ pad2 m ++ "-" ++ pad2 d

/-- datetime.strptime with format %Y-%m-%d %H:%M:%S, as used by
convert_time.  Seconds above 59 pass the regex but are rejected by the
datetime constructor. -/
def strptimeYMDHMS (s : String) : Option PDateTime := do
  let (y, r1) ← match4 s.toList
  let r2 ← matchLit '-' r1
  let (mo, r3) ← matchMonth r2
  let r4 ← matchLit '-' r3
  let (d, r5) ← matchDay r4
  let r6 ← matchLit ' ' r5
  let (h, r7) ← matchHour r6
  let r8 ← matchLit ':' r7
  let (mi, r9) ← matchMinute r8
  let r10 ← matchLit ':' r9
  let (sec, r11) ← matchSecond r10
  if r11.isEmpty ∧ validDate y mo d ∧ sec ≤ 59 then pure ⟨y, mo, d, h, mi, sec⟩ else none

/-- convert_time from okofan.py: join the date and the raw time field with a
blank and parse the result as a full timestamp.  A failing parse raises
ValueError in the source; here it returns the error value. -/
def convert_time (timestring : String) (date : String := "1990-01-01") : Except PErr PDateTime :=
  match strptimeYMDHMS (date ++ " " ++ timestring) with
  | some t => Except.ok t
  | none => Except.error PErr.valueError

def firstField (row : List String) : String :=
  match row with
  | f :: _ => f
  | [] => ""

/-- Parser states of the csv reader (Modules/_csv.c of CPython),
instantiated with the dialect getlogdate uses: delimiter the semicolon,
quote character the double quote, doublequote on, no escape character,
non-strict. -/
inductive CsvState
  | startRecord
  | startField
  | inField
  | inQuoted
  | quoteInQuoted

/-- The state machine of csv.reader over the character stream.  The
current field is accumulated in reverse.  A quote at the start of a
field opens a quoted field that absorbs delimiters and line terminators;
a doubled quote inside it stands for one quote; after a closing quote
further text is appended to the field (non-strict).  A record ends at a
line terminator outside a quoted field; a terminator at record start (a
blank line) yields the empty record; at the end of the input a pending
field or open quoted field is flushed as a last record. -/
def csvRun : List Char → CsvState → List Char → List String → List (List String) →
    List (List String)
  | [], st, field, fields, recs =>
    match st with
    | CsvState.startRecord => recs
    | _ => recs ++ [fields ++ [String.mk field.reverse]]
  | c :: rest, CsvState.startRecord, _field, _fields, recs =>
    if c = '"' then csvRun rest CsvState.inQuoted [] [] recs
    else if c = ';' then csvRun rest CsvState.startField [] [String.mk []] recs
    else if c = '\n' then csvRun rest CsvState.startRecord [] [] (recs ++ [[]])
    else csvRun rest CsvState.inField [c] [] recs
  | c :: rest, CsvState.startField, _field, fields, recs =>
    if c = '"' then csvRun rest CsvState.inQuoted [] fields recs
    else if c = ';' then csvRun rest CsvState.startField [] (fields ++ [String.mk []]) recs
    else if c = '\n' then
      csvRun rest CsvState.startRecord [] [] (recs ++ [fields ++ [String.mk []]])
    else csvRun rest CsvState.inField [c] fields recs
  | c :: rest, CsvState.inField, field, fields, recs =>
    if c = ';' then csvRun rest CsvState.startField [] (fields ++ [String.mk field.reverse]) recs
    else if c = '\n' then
      csvRun rest CsvState.startRecord [] [] (recs ++ [fields ++ [String.mk field.reverse]])
    else csvRun rest CsvState.inField (c :: field) fields recs
  | c :: rest, CsvState.inQuoted, field, fields, recs =>
    if c = '"' then csvRun rest CsvState.quoteInQuoted field fields recs
    else csvRun rest CsvState.inQuoted (c :: field) fields recs
  | c :: rest, CsvState.quoteInQuoted, field, fields, recs =>
    if c = '"' then csvRun rest CsvState.inQuoted ('"' :: field) fields recs
    else if c = ';' then csvRun rest CsvState.startField [] (fields ++ [String.mk field.reverse]) recs
    else if c = '\n' then
      csvRun rest CsvState.startRecord [] [] (recs ++ [fields ++ [String.mk field.reverse]])
    else csvRun rest CsvState.inField (c :: field) fields recs

/-- csv.reader over the stripped line stream of getlogdate.  The source
opens the file with newline kept, so every line reaching the reader
carries its terminator; the model appends the newline to each logical
line before running the machine.  A quoted field therefore absorbs
semicolons and terminators, and one record can span several lines. -/
def csvReader (lines : List String) : List (List String) :=
  csvRun ((lines.map (fun l => l.toList ++ ['\n'])).flatten) CsvState.startRecord [] [] []

/-- Date extraction from one csv record: row[0] parsed with %d.%m.%Y, then
formatted with date.isoformat. -/
def dateOfRow (row : List String) : Except PErr String :=
  match strptimeDMY (firstField row) with
  | some (y, m, d) => Except.ok (isoDate y m d)
  | none => Except.error PErr.valueError

/-- getlogdate from okofan.py: strip null bytes from every line, drop blank
lines, run the csv reader over what remains, skip the header record, and
parse the first field of the next record.  Fewer than two records make
the call of next raise StopIteration. -/
def getlogdate (lines : List String) : Except PErr String :=
  match csvReader (strip_lines (lines.map removeNulls)) with
  | _header :: row :: _ => dateOfRow row
  | _ => Except.error PErr.stopIteration

/-- The first two non-blank lines of a file after null-byte removal: the
part of the file the locality claim says the date depends on. -/
def dateKey (lines : List String) : List String :=
  (strip_lines (lines.map removeNulls)).take 2

/-- The part of a file getlogdate actually depends on: the first two csv
records of its non-blank null-stripped line stream (a record may span
several lines when a quoted field absorbs the terminator). -/
def csvKey (lines : List String) : List (List String) :=
  (csvReader (strip_lines (lines.map removeNulls))).take 2

/-- The log-file index: the logfiles dictionary, a map from an ISO date to
the path of the file carrying that date. -/
abbrev Idx := String → Option String

def emptyIdx : Idx := fun _ => none

/-- Dictionary assignment logfiles[date] = file. -/
def update (m : Idx) (k v : String) : Idx :=
  fun q => if q = k then some v else m q

/-- Outcome of load_log_list: the loop ran to completion and rebuilt the
overview list, or the progress dialog was cancelled (index restored from
the deepcopy), or getlogdate raised and the exception left the method
with the partially extended index in place. -/
inductive LoadOutcome
  | completed (index : Idx) (logdata : List String)
  | cancelled (index : Idx)
  | error (index : Idx) (e : PErr)

def outIndex : LoadOutcome → Idx
  | LoadOutcome.completed i _ => i
  | LoadOutcome.cancelled i => i
  | LoadOutcome.error i _ => i

/-- The scan loop of load_log_list.  A file is a pair of its path and its
content lines; orig is the deepcopy of the index taken before the loop;
the counter starts at 1 and the cancellation flag is polled after each
file has been recorded, exactly as in the source. -/
def loadLoop (cancel : Nat → Bool) (orig : Idx) :
    Nat → Idx → List String → List (String × List String) → LoadOutcome
  | _, cur, dates, [] => LoadOutcome.completed cur dates.reverse
  | i, cur, dates, f :: rest =>
    match getlogdate f.2 with
    | Except.error e => LoadOutcome.error cur e
    | Except.ok date =>
      if cancel i then LoadOutcome.cancelled orig
      else loadLoop cancel orig (i + 1) (update cur date f.1) (date :: dates) rest

/-- load_log_list from okofan.py, with the progress dialog abstracted into
the cancellation schedule. -/
def load_log_list (cancel : Nat → Bool) (idx : Idx)
    (files : List (String × List String)) : LoadOutcome :=
  loadLoop cancel idx 1 idx [] files

def noCancel : Nat → Bool := fun _ => false

/-- The dates the scan would extract, paired with the file paths, when every
extraction succeeds; the first failing file yields its error. -/
def extractDates : List (String × List String) → Except PErr (List (String × String))
  | [] => Except.ok []
  | f :: rest => do
    let d ← getlogdate f.2
    let ps ← extractDates rest
    Except.ok ((d, f.1) :: ps)

/-- Folding the extracted date-to-path assignments into an index. -/
def applyAll (ps : List (String × String)) (m : Idx) : Idx :=
  ps.foldl (fun acc p => update acc p.1 p.2) m

/-- The value the last assignment of a key in the list would leave, when
there is one. -/
def lastLookup : List (String × String) → String → Option String
  | [], _ => none
  | p :: tl, k =>
    match lastLookup tl k with
    | some v => some v
    | none => if p.1 = k then some p.2 else none

/-- The glob pattern of open_action: the name is CM, six digits and the
lowercase extension csv, nothing else, matched case-sensitively. -/
def matchesPattern (name : String) : Bool :=
  match name.toList with
  | 'C' :: 'M' :: d1 :: d2 :: d3 :: d4 :: d5 :: d6 :: '.' :: 'c' :: 's' :: 'v' :: [] =>
    d1.isDigit && d2.isDigit && d3.isDigit && d4.isDigit && d5.isDigit && d6.isDigit
  | _ => false

/-- Outcome of open_action after a directory was chosen: either no file
name matched the pattern and the method returned with nothing done, or
the matching files were handed to load_log_list. -/
inductive OpenResult
  | noFiles (index : Idx)
  | scanned (out : LoadOutcome)

/-- open_action from okofan.py, after the directory dialog: glob the chosen
directory for the pattern and hand any matches to load_log_list.  The
directory is given as its list of entries (name and content); glob is
non-recursive, so only direct entries appear. -/
def open_action (dirFiles : List (String × List String)) (idx : Idx)
    (cancel : Nat → Bool) : OpenResult :=
  let filelist := dirFiles.filter (fun f => matchesPattern f.1)
  if filelist.isEmpty then OpenResult.noFiles idx
  else OpenResult.scanned (load_log_list cancel idx filelist)

def openIndex : OpenResult → Idx
  | OpenResult.noFiles i => i
  | OpenResult.scanned o => outIndex o

/-- The user-facing messages issued on the open/scan path.  The only
QMessageBox call of the program sits in item_activated; open_action and
load_log_list issue none, in particular none when no file matches. -/
def openMessages : OpenResult → List String
  | OpenResult.noFiles _ => []
  | OpenResult.scanned _ => []

def digitsVal (cs : List Char) : Nat := cs.foldl (fun a c => a * 10 + dval c) 0

/-- Continuation of the digit run of the builtin int() grammar: digits
with single underscores allowed between two digits, so no leading,
trailing or doubled underscore. -/
def intDigitsRest : List Char → Bool
  | [] => true
  | '_' :: c :: rest => c.isDigit && intDigitsRest rest
  | '_' :: [] => false
  | c :: rest => c.isDigit && intDigitsRest rest

/-- The digit run of the builtin int() grammar: a digit, then digits with
optional single underscores between digits. -/
def intLiteral : List Char → Bool
  | c :: rest => c.isDigit && intDigitsRest rest
  | [] => false

/-- Builtin int() as applied by the genfromtxt integer columns:
surrounding whitespace is ignored, then an optional sign and an
underscore-grouped digit run, at arbitrary precision (the fields reach
it already stripped by autostrip anyway). -/
def parseIntPy (s : String) : Option Int :=
  match pyStripList s.toList with
  | '-' :: rest =>
    if intLiteral rest then some (-(Int.ofNat (digitsVal (rest.filter (fun c => c != '_')))))
    else none
  | '+' :: rest =>
    if intLiteral rest then some (Int.ofNat (digitsVal (rest.filter (fun c => c != '_'))))
    else none
  | cs =>
    if intLiteral cs then some (Int.ofNat (digitsVal (cs.filter (fun c => c != '_'))))
    else none

/-- One parsed data row: the 12 logical columns of raw columns 2 to 13, in
the fixed order of the source. -/
structure LogRecord where
  time : PDateTime
  kf : Int
  rgf : Int
  sp_frt : Int
  frt : Int
  es : Int
  pa : Int
  ll : Int
  sz : Int
  sp_up : Int
  up : Int
  sm : String
  deriving DecidableEq

/-- One integer cell of the genfromtxt call.  A value failing the int()
grammar makes the whole parse fail with ValueError: the loose converter
call substitutes the filling value Burning for the cell, and the final
integer array construction then rejects that string.  A value outside
the int64 range of the array storage fails the construction with
OverflowError. -/
def getInt (s : String) : Except PErr Int :=
  match parseIntPy s with
  | some v =>
    if -(2 ^ 63) ≤ v ∧ v < 2 ^ 63 then Except.ok v else Except.error PErr.overflowError
  | none => Except.error PErr.valueError

/-- One data row of the genfromtxt call of item_activated: the raw line has
been split on the semicolon and autostripped; raw column 1 is ignored,
column 2 is the time (converter convert_time with the selected date),
columns 3 to 12 are integers, column 13 is the status.  The status
converter s.decode() keeps the stripped raw value verbatim, the empty
field included (it yields the empty string, not the filling value: the
filling value is substituted only when a converter raises, and a decode
failure, the one way this converter can raise, is byte-level and outside
the String model).  Any integer-cell failure, or a row too short for
usecols, is fatal for the whole parse.  A failing time conversion is
folded into the error outcome as well: in the source the loose converter
call substitutes the filling value and the handler then crashes in the
plotting call of the same slot, so the slot-level outcome coincides. -/
def parseDataRow (date : String) (fields : List String) : Except PErr LogRecord :=
  match fields with
  | _c0 :: c1 :: c2 :: c3 :: c4 :: c5 :: c6 :: c7 :: c8 :: c9 :: c10 :: c11 :: c12 :: _ => do
    let t ← convert_time c1 date
    let kf ← getInt c2
    let rgf ← getInt c3
    let sp_frt ← getInt c4
    let frt ← getInt c5
    let es ← getInt c6
    let pa ← getInt c7
    let ll ← getInt c8
    let sz ← getInt c9
    let sp_up ← getInt c10
    let up ← getInt c11
    Except.ok ⟨t, kf, rgf, sp_frt, frt, es, pa, ll, sz, sp_up, up, c12⟩
  | _ => Except.error PErr.valueError

def rowsMapM (date : String) : List String → Except PErr (List LogRecord)
  | [] => Except.ok []
  | l :: rest => do
    let r ← parseDataRow date ((splitSemi l).map pyStrip)
    let rs ← rowsMapM date rest
    Except.ok (r :: rs)

/-- The np.genfromtxt call of item_activated: blank lines are skipped, the
first remaining line supplies the column names and is not data, every
later line is parsed into a LogRecord; the first failure aborts the
whole parse.  genfromtxt does not remove null bytes (only getlogdate
does) and raises on input without any usable line. -/
def parseLogFile (date : String) (lines : List String) : Except PErr (List LogRecord) :=
  match strip_lines lines with
  | _names :: dataRows => rowsMapM date dataRows
  | [] => Except.error PErr.valueError

/-- The data rows genfromtxt would see: the non-blank lines of the file
with the header removed. -/
def dataRowsOf (lines : List String) : List String :=
  (strip_lines lines).drop 1

/-- The ten integer cells of a split-and-stripped data row: fields 3 to 12
of the raw line. -/
def numericCells (fields : List String) : List String := (fields.drop 2).take 10

/-- What leaves the item_activated slot: a warning dialog when the date has
no log, an exception propagating out of the slot uncaught (there is no
try/except around the parse), or the detail view populated with the
records. -/
inductive ActivateResult
  | noLogWarning (date : String)
  | uncaught (e : PErr)
  | displayed (records : List LogRecord)
  deriving DecidableEq

/-- item_activated from okofan.py, for an activation carrying the given
date string: look the date up in the index; warn when absent; otherwise
run the genfromtxt parse and populate table and chart.  The slot has no
try/except, so any exception leaves it uncaught.  genfromtxt squeezes
its output: a file with exactly one data row comes back as a 0-d array
and len(logdata) raises TypeError before anything is displayed, and a
file with no data rows comes back empty so that logdata[0] raises
IndexError (under the numpy contemporary with the source, where unpack
is a no-op for structured dtypes). -/
def item_activated (logfiles : Idx) (contents : String → List String)
    (date : String) : ActivateResult :=
  match logfiles date with
  | none => ActivateResult.noLogWarning date
  | some path =>
    match parseLogFile date (contents path) with
    | Except.error e => ActivateResult.uncaught e
    | Except.ok [] => ActivateResult.uncaught PErr.indexError
    | Except.ok [_] => ActivateResult.uncaught PErr.typeError
    | Except.ok recs => ActivateResult.displayed recs

/-! Concrete inputs used by the witnesses and counterexamples. -/

def exName : String := "CM130513.csv"

def exHeader : String := "Datum;Zeit;KF;RGF;SP_FRT;FRT;ES;PA;LL;SZ;SP_uP;uP;SM"

/-- The data row of the end-to-end example exactly as the spec writes it,
with a two-digit year in the first raw column. -/
def exRow24 : String := "01.01.24;09:05:03;1;2;3;4;5;6;7;8;9;10;Burning"

/-- The same data row with the first raw column in DD.MM.YYYY form. -/
def exRow : String := "01.01.2024;09:05:03;1;2;3;4;5;6;7;8;9;10;Burning"

def exDate : String := "2024-01-01"

def exFile : List String := [exHeader, exRow]

def exDateMar : String := "2024-03-01"

def exTimeRaw : String := "9:5:3"

def exTimePadded : String := "09:05:03"

def exRecBurning : LogRecord :=
  ⟨⟨2024, 1, 1, 9, 5, 3⟩, 1, 2, 3, 4, 5, 6, 7, 8, 9, 10, "Burning"⟩

def exRecFoobar : LogRecord :=
  ⟨⟨2024, 1, 1, 9, 5, 3⟩, 1, 2, 3, 4, 5, 6, 7, 8, 9, 10, "Foobar"⟩

def exFieldsFoobar : List String :=
  ["x", "9:5:3", "1", "2", "3", "4", "5", "6", "7", "8", "9", "10", "Foobar"]

/-! Helper lemmas. -/

theorem exceptBindOk {α β : Type} {x : Except PErr α} {f : α → Except PErr β} {b : β} :
    x >>= f = Except.ok b ↔ ∃ a, x = Except.ok a ∧ f a = Except.ok b := by
  cases x with
  | error e => simp [Bind.bind, Except.bind]
  | ok a => simp [Bind.bind, Except.bind]

theorem parseDataRow_ok {date c0 c1 c2 c3 c4 c5 c6 c7 c8 c9 c10 c11 c12 : String}
    {rest : List String} {rec : LogRecord}
    (h : parseDataRow date
        (c0 :: c1 :: c2 :: c3 :: c4 :: c5 :: c6 :: c7 :: c8 :: c9 :: c10 :: c11 :: c12 :: rest)
      = Except.ok rec) :
    convert_time c1 date = Except.ok rec.time ∧
    getInt c2 = Except.ok rec.kf ∧ getInt c3 = Except.ok rec.rgf ∧
    getInt c4 = Except.ok rec.sp_frt ∧ getInt c5 = Except.ok rec.frt ∧
    getInt c6 = Except.ok rec.es ∧ getInt c7 = Except.ok rec.pa ∧
    getInt c8 = Except.ok rec.ll ∧ getInt c9 = Except.ok rec.sz ∧
    getInt c10 = Except.ok rec.sp_up ∧ getInt c11 = Except.ok rec.up ∧
    rec.sm = c12 := by
  simp only [parseDataRow] at h
  rw [exceptBindOk] at h
  obtain ⟨v1, h1, h⟩ := h
  rw [exceptBindOk] at h
  obtain ⟨v2, h2, h⟩ := h
  rw [exceptBindOk] at h
  obtain ⟨v3, h3, h⟩ := h
  rw [exceptBindOk] at h
  obtain ⟨v4, h4, h⟩ := h
  rw [exceptBindOk] at h
  obtain ⟨v5, h5, h⟩ := h
  rw [exceptBindOk] at h
  obtain ⟨v6, h6, h⟩ := h
  rw [exceptBindOk] at h
  obtain ⟨v7, h7, h⟩ := h
  rw [exceptBindOk] at h
  obtain ⟨v8, h8, h⟩ := h
  rw [exceptBindOk] at h
  obtain ⟨v9, h9, h⟩ := h
  rw [exceptBindOk] at h
  obtain ⟨v10, h10, h⟩ := h
  rw [exceptBindOk] at h
  obtain ⟨v11, h11, h⟩ := h
  injection h with h12
  subst h12
  exact ⟨h1, h2, h3, h4, h5, h6, h7, h8, h9, h10, h11, rfl⟩

/-- C7: the raw time field 9:5:3 together with the file date 2024-03-01 is
normalised by prepending the date and parsing as YYYY-MM-DD HH:MM:SS,
yielding the timestamp 2024-03-01T09:05:03, the same value the already
padded field 09:05:03 yields. -/
theorem c7_convert_time_pads :
    convert_time exTimeRaw exDateMar = Except.ok ⟨2024, 3, 1, 9, 5, 3⟩ ∧
    convert_time exTimePadded exDateMar = convert_time exTimeRaw exDateMar :=
  ⟨rfl, rfl⟩

/-- C1 counterexample: the data row of the end-to-end example as the spec
writes it carries the two-digit year 24 in its first raw column; strptime
with format %d.%m.%Y requires exactly four digits for %Y, so getlogdate
raises ValueError and the scan of the directory never maps 2024-01-01. -/
theorem c1_spec_example_two_digit_year_fails :
    getlogdate [exHeader, exRow24] = Except.error PErr.valueError ∧
    openIndex (open_action [(exName, [exHeader, exRow24])] emptyIdx noCancel) exDate = none :=
  ⟨rfl, rfl⟩

def exRowB : String := "01.01.2024;09:15:03;1;2;3;4;5;6;7;8;9;10;Zuendung"

def exFileTwo : List String := [exHeader, exRow, exRowB]

def exRecZuendung : LogRecord :=
  ⟨⟨2024, 1, 1, 9, 15, 3⟩, 1, 2, 3, 4, 5, 6, 7, 8, 9, 10, "Zuendung"⟩

/-- C1 (amended): with the first raw column of the single data row in full
DD.MM.YYYY form, 01.01.2024, the scan maps 2024-01-01 to the file
CM130513.csv, and the parse of the selected file yields exactly one
record with time 09:05:03, the ten integer columns 1 to 10 in fixed
order, and status Burning; the activation handler however never displays
that record: genfromtxt squeezes the single-row result to a 0-d array
and the handler raises TypeError uncaught at len(logdata).  With a
second data row appended the handler displays both records. -/
theorem c1_end_to_end_four_digit_year :
    getlogdate exFile = Except.ok exDate ∧
    openIndex (open_action [(exName, exFile)] emptyIdx noCancel) exDate = some exName ∧
    parseLogFile exDate exFile = Except.ok [exRecBurning] ∧
    item_activated (openIndex (open_action [(exName, exFile)] emptyIdx noCancel))
        (fun _ => exFile) exDate
      = ActivateResult.uncaught PErr.typeError ∧
    item_activated (update emptyIdx exDate exName) (fun _ => exFileTwo) exDate
      = ActivateResult.displayed [exRecBurning, exRecZuendung] :=
  ⟨rfl, rfl, rfl, rfl, rfl⟩

/-- C2 counterexample: a status field that is none of the four known values
and not empty, here Foobar, is carried through verbatim by the parser and
not replaced by Burning. -/
theorem c2_unknown_status_passes_through :
    parseDataRow exDate exFieldsFoobar = Except.ok exRecFoobar ∧
    exRecFoobar.sm ≠ "Burning" :=
  ⟨rfl, by decide⟩

/-- C2 (amended): for every successfully parsed data row the status column
is the stripped raw field carried through verbatim: the converter is a
plain decode, so the four known values survive exactly, and an empty
(missing) status field yields the empty string, not Burning.  Only a
byte-level decode failure, which raises inside the loose converter call
and is outside this String-level model, would make genfromtxt substitute
the filling value Burning. -/
theorem c2_status_field_semantics {date c0 c1 c2 c3 c4 c5 c6 c7 c8 c9 c10 c11 c12 : String}
    {rest : List String} {rec : LogRecord}
    (h : parseDataRow date
        (c0 :: c1 :: c2 :: c3 :: c4 :: c5 :: c6 :: c7 :: c8 :: c9 :: c10 :: c11 :: c12 :: rest)
      = Except.ok rec) :
    rec.sm = c12 :=
  (parseDataRow_ok h).2.2.2.2.2.2.2.2.2.2.2

def exFieldsEmptySm : List String :=
  ["x", "9:5:3", "1", "2", "3", "4", "5", "6", "7", "8", "9", "10", ""]

def exRecEmptySm : LogRecord :=
  ⟨⟨2024, 1, 1, 9, 5, 3⟩, 1, 2, 3, 4, 5, 6, 7, 8, 9, 10, ""⟩

/-- C2 witness: the amended statement applied to the concrete Foobar row
and to a row whose status field is empty, which keeps the empty string
rather than turning into Burning. -/
theorem c2_status_field_semantics_witness :
    (parseDataRow exDate exFieldsFoobar = Except.ok exRecFoobar ∧
     exRecFoobar.sm = "Foobar") ∧
    (parseDataRow exDate exFieldsEmptySm = Except.ok exRecEmptySm ∧
     exRecEmptySm.sm = "") := by
  have h1 : parseDataRow exDate exFieldsFoobar = Except.ok exRecFoobar := rfl
  have h2 : parseDataRow exDate exFieldsEmptySm = Except.ok exRecEmptySm := rfl
  exact ⟨⟨h1, c2_status_field_semantics h1⟩, ⟨h2, c2_status_field_semantics h2⟩⟩

theorem openMessages_eq_nil (r : OpenResult) : openMessages r = [] := by
  cases r <;> rfl

theorem loadLoop_cancelled {cancel : Nat → Bool} {orig i2 : Idx} :
    ∀ (files : List (String × List String)) (i : Nat) (cur : Idx) (dates : List String),
      loadLoop cancel orig i cur dates files = LoadOutcome.cancelled i2 → i2 = orig := by
  intro files
  induction files with
  | nil =>
    intro i cur dates h
    exact LoadOutcome.noConfusion h
  | cons f tl ih =>
    intro i cur dates h
    simp only [loadLoop] at h
    split at h
    · exact LoadOutcome.noConfusion h
    · split at h
      · injection h with h2
        exact h2.symm
      · exact ih _ _ _ h

/-- C3: whenever a scan is cancelled mid-way, whatever the cancellation
point and whatever had already been recorded, the index left behind is
exactly the index from before the scan: the deepcopy taken before the
loop is put back in place, never a partial index. -/
theorem c3_cancel_restores_index (cancel : Nat → Bool) (idx i2 : Idx)
    (files : List (String × List String))
    (h : load_log_list cancel idx files = LoadOutcome.cancelled i2) : i2 = idx :=
  loadLoop_cancelled files 1 idx [] h

def wName1 : String := "CM000001.csv"

def wName2 : String := "CM000002.csv"

def wDate2 : String := "2024-01-02"

def wRow2 : String := "02.01.2024;09:05:03;1;2;3;4;5;6;7;8;9;10;Burning"

def wFile1 : String × List String := (wName1, [exHeader, exRow])

def wFile2 : String × List String := (wName2, [exHeader, wRow2])

def wFiles5 : List (String × List String) :=
  [wFile1, wFile2, ("CM000003.csv", []), ("CM000004.csv", []), ("CM000005.csv", [])]

def wOldDate : String := "2023-12-31"

def wOldName : String := "CM999999.csv"

def wIdx0 : Idx := update emptyIdx wOldDate wOldName

def cancelAt2 : Nat → Bool := fun i => i == 2

/-- C3 witness: a five-file scan cancelled after the second file leaves the
pre-scan index untouched. -/
theorem c3_cancel_restores_index_witness :
    load_log_list cancelAt2 wIdx0 wFiles5 = LoadOutcome.cancelled wIdx0 ∧ wIdx0 = wIdx0 :=
  ⟨rfl, c3_cancel_restores_index cancelAt2 wIdx0 wIdx0 wFiles5 rfl⟩

def wDirNoMatch : List (String × List String) :=
  [("notes.txt", []), ("CM12345.csv", []), ("CM123456.CSV", []), ("cm123456.csv", [])]

/-- C5 counterexample: when no file name matches the pattern, open_action
returns silently with the index untouched; no user-facing message about
the absence of applicable files is issued anywhere on this path, so the
caller is not informed. -/
theorem c5_no_matching_files_silent :
    open_action wDirNoMatch emptyIdx noCancel = OpenResult.noFiles emptyIdx ∧
    openMessages (open_action wDirNoMatch emptyIdx noCancel) = [] :=
  ⟨rfl, rfl⟩

/-- C5 (amended): when no file of the chosen directory matches the CM plus
six digits plus csv pattern, the index is left unchanged and no scan is
started, but the caller is not informed: the method returns without
issuing any message. -/
theorem c5_no_matching_files_index_unchanged (dirFiles : List (String × List String))
    (idx : Idx) (cancel : Nat → Bool)
    (h : ∀ f ∈ dirFiles, matchesPattern f.1 = false) :
    open_action dirFiles idx cancel = OpenResult.noFiles idx ∧
    openMessages (open_action dirFiles idx cancel) = [] := by
  have hnil : dirFiles.filter (fun f => matchesPattern f.1) = [] := by
    rw [List.filter_eq_nil_iff]
    intro a ha
    simp [h a ha]
  constructor
  · simp only [open_action, hnil]
    rfl
  · exact openMessages_eq_nil _

/-- C5 witness: the amended statement applied to a directory holding only a
text file, a five-digit name, an uppercase extension and a lowercase cm. -/
theorem c5_no_matching_files_index_unchanged_witness :
    (∀ f ∈ wDirNoMatch, matchesPattern f.1 = false) ∧
    (open_action wDirNoMatch emptyIdx noCancel = OpenResult.noFiles emptyIdx ∧
     openMessages (open_action wDirNoMatch emptyIdx noCancel) = []) :=
  ⟨by decide, c5_no_matching_files_index_unchanged wDirNoMatch emptyIdx noCancel (by decide)⟩

theorem applyAll_none :
    ∀ (ps : List (String × String)) (m : Idx) (k : String),
      lastLookup ps k = none → applyAll ps m k = m k := by
  intro ps
  induction ps with
  | nil =>
    intro m k _
    rfl
  | cons p tl ih =>
    intro m k h
    simp only [lastLookup] at h
    show applyAll tl (update m p.1 p.2) k = m k
    split at h
    · exact Option.noConfusion h
    · rename_i hnone
      split at h
      · exact Option.noConfusion h
      · rename_i hpk
        rw [ih _ _ hnone]
        simp only [update]
        rw [if_neg (fun hh => hpk hh.symm)]

theorem applyAll_some {v : String} :
    ∀ (ps : List (String × String)) (m : Idx) (k : String),
      lastLookup ps k = some v → applyAll ps m k = some v := by
  intro ps
  induction ps with
  | nil =>
    intro m k h
    exact Option.noConfusion h
  | cons p tl ih =>
    intro m k h
    simp only [lastLookup] at h
    show applyAll tl (update m p.1 p.2) k = some v
    split at h
    · rename_i w hw
      injection h with h2
      subst h2
      exact ih _ _ hw
    · rename_i hnone
      split at h
      · rename_i hpk
        injection h with h2
        subst h2
        rw [applyAll_none tl (update m p.1 p.2) k hnone]
        simp only [update]
        rw [if_pos hpk.symm]
      · exact Option.noConfusion h

theorem applyAll_idem (ps : List (String × String)) (m : Idx) :
    applyAll ps (applyAll ps m) = applyAll ps m := by
  funext k
  cases h : lastLookup ps k with
  | some v => rw [applyAll_some ps (applyAll ps m) k h, applyAll_some ps m k h]
  | none => rw [applyAll_none ps (applyAll ps m) k h, applyAll_none ps m k h]

theorem extractDates_ok_cons {f : String × List String} {rest : List (String × List String)}
    {ps : List (String × String)} :
    extractDates (f :: rest) = Except.ok ps ↔
    ∃ d ps2, getlogdate f.2 = Except.ok d ∧ extractDates rest = Except.ok ps2 ∧
      ps = (d, f.1) :: ps2 := by
  simp only [extractDates]
  rw [exceptBindOk]
  constructor
  · rintro ⟨d, hd, h⟩
    rw [exceptBindOk] at h
    obtain ⟨ps2, h2, h3⟩ := h
    injection h3 with h3
    exact ⟨d, ps2, hd, h2, h3.symm⟩
  · rintro ⟨d, ps2, hd, h2, h3⟩
    refine ⟨d, hd, ?_⟩
    rw [exceptBindOk]
    exact ⟨ps2, h2, by rw [h3]⟩

theorem loadLoop_completed_of_extract (orig : Idx) :
    ∀ (files : List (String × List String)) (ps : List (String × String))
      (i : Nat) (cur : Idx) (dates : List String),
      extractDates files = Except.ok ps →
      loadLoop noCancel orig i cur dates files
        = LoadOutcome.completed (applyAll ps cur) (dates.reverse ++ ps.map Prod.fst) := by
  intro files
  induction files with
  | nil =>
    intro ps i cur dates h
    injection h with h2
    subst h2
    simp [loadLoop, applyAll]
  | cons f tl ih =>
    intro ps i cur dates h
    rw [extractDates_ok_cons] at h
    obtain ⟨d, ps2, hd, h2, h3⟩ := h
    subst h3
    simp only [loadLoop]
    rw [hd]
    show loadLoop noCancel orig (i + 1) (update cur d f.1) (d :: dates) tl = _
    rw [ih ps2 (i + 1) (update cur d f.1) (d :: dates) h2]
    simp [List.reverse_cons, List.append_assoc, applyAll]

theorem loadLoop_completed_extract {orig : Idx} :
    ∀ (files : List (String × List String)) (i : Nat) (cur : Idx) (dates : List String)
      {i2 : Idx} {d2 : List String},
      loadLoop noCancel orig i cur dates files = LoadOutcome.completed i2 d2 →
      ∃ ps, extractDates files = Except.ok ps := by
  intro files
  induction files with
  | nil =>
    intro i cur dates i2 d2 _
    exact ⟨[], rfl⟩
  | cons f tl ih =>
    intro i cur dates i2 d2 h
    simp only [loadLoop] at h
    split at h
    · exact LoadOutcome.noConfusion h
    · rename_i d hd
      split at h
      · rename_i hc
        exact absurd hc (by simp [noCancel])
      · obtain ⟨ps2, h2⟩ := ih _ _ _ h
        refine ⟨(d, f.1) :: ps2, ?_⟩
        rw [extractDates_ok_cons]
        exact ⟨d, ps2, hd, h2, rfl⟩

/-- C6: re-scanning the same files over the index that the first completed
scan produced completes again and yields the identical index (and the
same overview list): the scan is idempotent. -/
theorem c6_rescan_idempotent (idx i1 : Idx) (d1 : List String)
    (files : List (String × List String))
    (h : load_log_list noCancel idx files = LoadOutcome.completed i1 d1) :
    load_log_list noCancel i1 files = LoadOutcome.completed i1 d1 := by
  obtain ⟨ps, hps⟩ := loadLoop_completed_extract files 1 idx [] h
  have h1 := loadLoop_completed_of_extract idx files ps 1 idx [] hps
  rw [load_log_list] at h
  rw [h] at h1
  injection h1 with hi hd
  rw [load_log_list]
  rw [loadLoop_completed_of_extract i1 files ps 1 i1 [] hps]
  rw [hi, applyAll_idem, hd]

/-- C6 witness: scanning two files twice from the empty index. -/
theorem c6_rescan_idempotent_witness :
    load_log_list noCancel emptyIdx [wFile1, wFile2]
      = LoadOutcome.completed (update (update emptyIdx exDate wName1) wDate2 wName2)
          [exDate, wDate2] ∧
    load_log_list noCancel (update (update emptyIdx exDate wName1) wDate2 wName2) [wFile1, wFile2]
      = LoadOutcome.completed (update (update emptyIdx exDate wName1) wDate2 wName2)
          [exDate, wDate2] :=
  ⟨rfl, c6_rescan_idempotent emptyIdx (update (update emptyIdx exDate wName1) wDate2 wName2)
    [exDate, wDate2] [wFile1, wFile2] rfl⟩

theorem loadLoop_error_after {orig : Idx} {bad : String × List String} {e : PErr}
    (hbad : getlogdate bad.2 = Except.error e) :
    ∀ (good : List (String × List String)) (ps : List (String × String))
      (rest : List (String × List String)) (i : Nat) (cur : Idx) (dates : List String),
      extractDates good = Except.ok ps →
      loadLoop noCancel orig i cur dates (good ++ bad :: rest)
        = LoadOutcome.error (applyAll ps cur) e := by
  intro good
  induction good with
  | nil =>
    intro ps rest i cur dates hex
    injection hex with hps
    subst hps
    simp only [List.nil_append, loadLoop]
    rw [hbad]
    rfl
  | cons g tl ih =>
    intro ps rest i cur dates hex
    rw [extractDates_ok_cons] at hex
    obtain ⟨d, ps2, hd, h2, h3⟩ := hex
    subst h3
    simp only [List.cons_append, loadLoop]
    rw [hd]
    show loadLoop noCancel orig (i + 1) (update cur d g.1) (d :: dates) (tl ++ bad :: rest) = _
    exact ih ps2 rest (i + 1) (update cur d g.1) (d :: dates) h2

/-- C9: the atomic restore happens only on explicit cancellation: when the
date extraction of the k-th file raises (here: under a schedule that
never cancels), the exception aborts the scan with the assignments of
the first k - 1 files already applied to the index, a partial update
rather than the prior index. -/
theorem c9_error_leaves_partial_index (idx : Idx) (good : List (String × List String))
    (bad : String × List String) (rest : List (String × List String))
    (ps : List (String × String)) (e : PErr)
    (h1 : extractDates good = Except.ok ps) (h2 : getlogdate bad.2 = Except.error e) :
    load_log_list noCancel idx (good ++ bad :: rest) = LoadOutcome.error (applyAll ps idx) e :=
  loadLoop_error_after h2 good ps rest 1 idx [] h1

def wBadFile : String × List String := ("CM000009.csv", [exHeader])

/-- C9 witness: the second of three files holds only a header line, so its
date extraction raises StopIteration; the scan aborts and the index keeps
the entry of the first file even though it was empty before the scan. -/
theorem c9_error_leaves_partial_index_witness :
    (extractDates [wFile1] = Except.ok [(exDate, wName1)] ∧
     getlogdate wBadFile.2 = Except.error PErr.stopIteration) ∧
    load_log_list noCancel emptyIdx ([wFile1] ++ wBadFile :: [wFile2])
      = LoadOutcome.error (applyAll [(exDate, wName1)] emptyIdx) PErr.stopIteration ∧
    applyAll [(exDate, wName1)] emptyIdx exDate = some wName1 ∧
    emptyIdx exDate = none :=
  ⟨⟨rfl, rfl⟩,
   c9_error_leaves_partial_index emptyIdx [wFile1] wBadFile [wFile2]
     [(exDate, wName1)] PErr.stopIteration rfl rfl,
   rfl, rfl⟩

theorem loadLoop_index_cases :
    ∀ (files : List (String × List String)) (cancel : Nat → Bool) (orig : Idx)
      (i : Nat) (cur : Idx) (dates : List String) (d : String),
      outIndex (loadLoop cancel orig i cur dates files) d = cur d ∨
      outIndex (loadLoop cancel orig i cur dates files) d = orig d ∨
      ∃ f, f ∈ files ∧ outIndex (loadLoop cancel orig i cur dates files) d = some f.1 := by
  intro files
  induction files with
  | nil =>
    intro cancel orig i cur dates d
    left
    rfl
  | cons f tl ih =>
    intro cancel orig i cur dates d
    simp only [loadLoop]
    split
    · left
      rfl
    · rename_i date hd
      split
      · right
        left
        rfl
      · rcases ih cancel orig (i + 1) (update cur date f.1) (date :: dates) d
          with h | h | ⟨g, hg, hgd⟩
        · by_cases hdd : d = date
          · right
            right
            refine ⟨f, List.mem_cons_self f tl, ?_⟩
            rw [h]
            simp only [update]
            rw [if_pos hdd]
          · left
            rw [h]
            simp only [update]
            rw [if_neg hdd]
        · right
          left
          exact h
        · right
          right
          exact ⟨g, List.mem_cons_of_mem f hg, hgd⟩

/-- C8: after any directory scan, every index entry either predates the
scan or points at a file of the directory whose name matches CM, six
digits and the lowercase extension csv exactly; a file whose name fails
the pattern is never entered into the index, whatever its contents. -/
theorem c8_nonmatching_never_indexed (dirFiles : List (String × List String))
    (idx : Idx) (cancel : Nat → Bool) (d : String) :
    openIndex (open_action dirFiles idx cancel) d = idx d ∨
    ∃ f, f ∈ dirFiles ∧ matchesPattern f.1 = true ∧
      openIndex (open_action dirFiles idx cancel) d = some f.1 := by
  simp only [open_action]
  by_cases he : (dirFiles.filter (fun f => matchesPattern f.1)).isEmpty
  · rw [if_pos he]
    left
    rfl
  · rw [if_neg he]
    show outIndex (load_log_list cancel idx (dirFiles.filter fun f => matchesPattern f.1)) d
      = idx d ∨ _
    rw [load_log_list]
    rcases loadLoop_index_cases (dirFiles.filter fun f => matchesPattern f.1)
        cancel idx 1 idx [] d with h | h | ⟨g, hg, hgd⟩
    · left
      exact h
    · left
      exact h
    · right
      have hm := List.mem_filter.mp hg
      exact ⟨g, hm.1, hm.2, hgd⟩

def qLineA : String := "\"a"

def qLineB : String := "b\";h"

def qTail1 : String := "01.01.2024;x"

def qTail2 : String := "25.12.2020;x"

def qFile1 : List String := [qLineA, qLineB, qTail1]

def qFile2 : List String := [qLineA, qLineB, qTail2]

def qDate2 : String := "2020-12-25"

/-- C10 counterexample: the quote opened on the first line absorbs the
line terminator, so the first csv record spans the first two lines and
the date is read from the third line; the two files agree on their first
two non-blank null-stripped lines yet get different dates. -/
theorem c10_quoted_field_shifts_date :
    dateKey qFile1 = dateKey qFile2 ∧
    getlogdate qFile1 = Except.ok exDate ∧
    getlogdate qFile2 = Except.ok qDate2 ∧
    getlogdate qFile1 ≠ getlogdate qFile2 := by
  have h1 : getlogdate qFile1 = Except.ok exDate := rfl
  have h2 : getlogdate qFile2 = Except.ok qDate2 := rfl
  refine ⟨rfl, h1, h2, ?_⟩
  intro hq
  rw [h1, h2] at hq
  injection hq with hq2
  exact absurd hq2 (by decide)

/-- C10 (amended): the derived date of a log file is a function of the
first two csv records of its non-blank null-stripped line stream alone:
two files agreeing on those two records get the same date, whatever
follows them; blank and null-only lines are still skipped before the
csv reader runs, but a quoted field can make a record span lines, so the
second record need not sit on the second line. -/
theorem c10_date_depends_on_first_two_records (l1 l2 : List String)
    (h : csvKey l1 = csvKey l2) : getlogdate l1 = getlogdate l2 := by
  unfold getlogdate
  unfold csvKey at h
  rcases hx : csvReader (strip_lines (l1.map removeNulls)) with _ | ⟨a, _ | ⟨b, t⟩⟩ <;>
    rcases hy : csvReader (strip_lines (l2.map removeNulls)) with _ | ⟨c, _ | ⟨e, u⟩⟩ <;>
    rw [hx, hy] at h <;>
    simp_all

def wNullLine : String := "\x00\x00"

def wBlankLine : String := "   "

def wJunk : String := "junk;junk"

def wL1 : List String := [wNullLine, wBlankLine, exHeader, exRow, wJunk]

set_option maxHeartbeats 1000000 in
/-- C10 witness: a file with a null-byte line, a whitespace line and a
trailing junk line agrees with the plain two-line file on the first two
csv records, and getlogdate returns the same date for both. -/
theorem c10_date_depends_on_first_two_records_witness :
    csvKey wL1 = csvKey exFile ∧ getlogdate wL1 = getlogdate exFile :=
  ⟨by decide, c10_date_depends_on_first_two_records wL1 exFile (by decide)⟩

theorem parseDataRow_not_ok {date c0 c1 c2 c3 c4 c5 c6 c7 c8 c9 c10 c11 c12 : String}
    {rest : List String} {s : String}
    (hmem : s ∈ [c2, c3, c4, c5, c6, c7, c8, c9, c10, c11])
    (hbad : parseIntPy s = none) :
    ∀ rec, parseDataRow date
        (c0 :: c1 :: c2 :: c3 :: c4 :: c5 :: c6 :: c7 :: c8 :: c9 :: c10 :: c11 :: c12 :: rest)
      ≠ Except.ok rec := by
  intro rec h
  have hinv := parseDataRow_ok h
  simp only [List.mem_cons, List.not_mem_nil, or_false] at hmem
  rcases hmem with h1 | h1 | h1 | h1 | h1 | h1 | h1 | h1 | h1 | h1 <;>
    subst h1 <;>
    simp [getInt, hbad] at hinv

theorem rowsMapM_error {date line : String} :
    ∀ rows, line ∈ rows →
      (∀ rec, parseDataRow date ((splitSemi line).map pyStrip) ≠ Except.ok rec) →
      ∃ e, rowsMapM date rows = Except.error e := by
  intro rows
  induction rows with
  | nil =>
    intro hmem
    exact absurd hmem (List.not_mem_nil line)
  | cons r tl ih =>
    intro hmem hfail
    cases hp : parseDataRow date ((splitSemi r).map pyStrip) with
    | error e =>
      refine ⟨e, ?_⟩
      simp only [rowsMapM]
      rw [hp]
      rfl
    | ok rec0 =>
      rcases List.mem_cons.mp hmem with heq | hmem2
      · subst heq
        exact absurd hp (hfail rec0)
      · obtain ⟨e, he⟩ := ih hmem2 hfail
        refine ⟨e, ?_⟩
        simp only [rowsMapM]
        rw [hp, he]
        rfl

/-- C4 counterexample: a data row whose eighth raw column holds the
non-integer value abc makes the parse of the file fail as a whole, but
the failure is not recovered at the UI boundary: item_activated has no
try/except, so the result at the slot boundary is an uncaught exception,
not a user-facing message (with PyQt5 default handling this aborts the
process). -/
theorem c4_malformed_row_uncaught :
    parseLogFile exDate [exHeader, ("x;9:5:3;1;2;3;4;5;abc;7;8;9;10;Zuendung")]
      = Except.error PErr.valueError ∧
    item_activated (update emptyIdx exDate wName1)
        (fun _ => [exHeader, ("x;9:5:3;1;2;3;4;5;abc;7;8;9;10;Zuendung")]) exDate
      = ActivateResult.uncaught PErr.valueError :=
  ⟨rfl, rfl⟩

/-- C4 (amended): a log file with a data row carrying a non-integer value
in one of the ten numeric columns fails to parse as a whole, no partial
sequence of records is produced; the error is however not recovered at
the UI boundary: the selection handler propagates the exception uncaught
and no user-facing message is shown. -/
theorem c4_malformed_row_aborts_parse (logfiles : Idx) (contents : String → List String)
    (date f line s : String)
    (c0 c1 c2 c3 c4 c5 c6 c7 c8 c9 c10 c11 c12 : String) (rest : List String)
    (hf : logfiles date = some f)
    (hline : line ∈ dataRowsOf (contents f))
    (hshape : (splitSemi line).map pyStrip
      = c0 :: c1 :: c2 :: c3 :: c4 :: c5 :: c6 :: c7 :: c8 :: c9 :: c10 :: c11 :: c12 :: rest)
    (hmem : s ∈ [c2, c3, c4, c5, c6, c7, c8, c9, c10, c11])
    (hbad : parseIntPy s = none) :
    ∃ e, parseLogFile date (contents f) = Except.error e ∧
      item_activated logfiles contents date = ActivateResult.uncaught e := by
  have hfail : ∀ rec, parseDataRow date ((splitSemi line).map pyStrip) ≠ Except.ok rec := by
    rw [hshape]
    exact parseDataRow_not_ok hmem hbad
  unfold dataRowsOf at hline
  cases hL : strip_lines (contents f) with
  | nil =>
    rw [hL] at hline
    exact absurd hline (List.not_mem_nil line)
  | cons names dataRows =>
    rw [hL] at hline
    simp only [List.drop_succ_cons, List.drop_zero] at hline
    obtain ⟨e, he⟩ := rowsMapM_error dataRows hline hfail
    have hp : parseLogFile date (contents f) = Except.error e := by
      unfold parseLogFile
      rw [hL]
      exact he
    refine ⟨e, hp, ?_⟩
    simp only [item_activated, hf, hp]

def wBadRow : String := "x;9:5:3;1;2;3;4;5;abc;7;8;9;10;Zuendung"

def wBadLog : List String := [exHeader, wBadRow]

def wIdxBad : Idx := update emptyIdx exDate wName1

/-- C4 witness: the amended statement applied to a concrete file whose
single data row has abc in a numeric column. -/
theorem c4_malformed_row_aborts_parse_witness :
    (wIdxBad exDate = some wName1 ∧
     wBadRow ∈ dataRowsOf wBadLog ∧
     parseIntPy ("abc") = none) ∧
    ∃ e, parseLogFile exDate wBadLog = Except.error e ∧
      item_activated wIdxBad (fun _ => wBadLog) exDate = ActivateResult.uncaught e :=
  ⟨⟨rfl, by decide, rfl⟩,
   c4_malformed_row_aborts_parse wIdxBad (fun _ => wBadLog) exDate wName1 wBadRow ("abc")
     ("x") ("9:5:3") ("1") ("2") ("3") ("4") ("5") ("abc") ("7") ("8") ("9") ("10")
     ("Zuendung") [] rfl (by decide) rfl (by decide) rfl⟩
